import Mathlib

/-!
Verification of the crawl-job lifecycle of a Google-Maps data scraper.

The development shallowly embeds the Go sources:
* `mergeCSVFiles` and `readCSVWithBOM`-level record lists (webrunner),
* the adaptive budget calculator inside `scrapeJob` (webrunner),
* `SearchJob.Process`, `removeFirstLine`, `NewSearchJob` and its options (gmaps),
* `CreateSeedJobs` in direct-request (fast) mode (runner),
* `scrapeJob`'s control flow (webrunner),
* `RotatingCsvWriter` (webrunner).

CSV files are modelled as lists of records (a record is a list of cell
strings); the byte-order marker and flushing are durability details with no
effect on record content and are not modelled.  Byte strings are modelled as
`List Char` / `List Nat` so that every definition evaluates inside the kernel.
-/

namespace MapsScraper

/-! ## Basic character-list utilities

Counterparts of the Go standard-library string helpers the sources use
(`strings.TrimSpace`, `strings.Cut`, `strings.Split` with a one-character
separator, and byte-string comparison as used by `sort.Strings`). -/

/-- Byte-wise "less or equal" on names, the order used by Go's
`sort.Strings`; characters are compared by code point. -/
def charListLe : List Char → List Char → Bool
  | [], _ => true
  | _ :: _, [] => false
  | a :: as, b :: bs =>
    if a.toNat < b.toNat then true
    else if b.toNat < a.toNat then false
    else charListLe as bs

/-- Counterpart of Go `strings.TrimSpace` on a character list. -/
def trimChars (cs : List Char) : List Char :=
  ((cs.dropWhile Char.isWhitespace).reverse.dropWhile Char.isWhitespace).reverse

/-- Counterpart of Go `strings.Split` with a one-character separator. -/
def splitOnChar (sep : Char) : List Char → List (List Char)
  | [] => [[]]
  | c :: rest =>
    if c = sep then [] :: splitOnChar sep rest
    else
      match splitOnChar sep rest with
      | [] => [[c]]
      | p :: ps => (c :: p) :: ps

/-- Counterpart of Go `strings.Cut`: split at the first occurrence of `sep`,
returning `none` when `sep` does not occur. -/
def cutList (sep : List Char) : List Char → Option (List Char × List Char)
  | [] => none
  | c :: rest =>
    if sep.isPrefixOf (c :: rest) then some ([], (c :: rest).drop sep.length)
    else
      match cutList sep rest with
      | some (pre, post) => some (c :: pre, post)
      | none => none

/-! ## Shard merging (`mergeCSVFiles` in the web runner)

A CSV record is a list of cells; a shard file on disk is a filename (a byte
string, modelled as `List Char`) together with its record list (its header,
when present, is its first record, exactly as `readCSVWithBOM` returns it).
`mergeCSVFiles` globs `<runID>_*.csv`, sorts the names with `sort.Strings`
(byte-wise lexicographic), writes one output taking the header from the
first non-empty file and skipping the header of every later file, counts
the data rows written, and deletes the source files. -/

/-- One CSV record: a list of cell strings. -/
abbrev Rec := List String

/-- A shard file as the merger sees it: its filename and its records. -/
abbrev NamedShard := List Char × List Rec

/-- Ordering of shard filenames used by `sort.Strings` inside
`mergeCSVFiles`. -/
def nameLe (a b : NamedShard) : Prop := charListLe a.1 b.1 = true

instance : DecidableRel nameLe := fun a b =>
  inferInstanceAs (Decidable (charListLe a.1 b.1 = true))

/-- The filename sort performed by `sort.Strings(matches)`. -/
def sortByName (files : List NamedShard) : List NamedShard :=
  List.insertionSort nameLe files

/-- The merge loop of `mergeCSVFiles`: the Boolean is the `headerWritten`
flag; an empty (or unreadable) file is skipped; the first record of the
first non-empty file becomes the single header; every later record is a
data row and is counted. -/
def mergeLoop : Bool → List (List Rec) → List Rec × Nat
  | _, [] => ([], 0)
  | hw, [] :: rest => mergeLoop hw rest
  | hw, (h :: t) :: rest =>
    let p := mergeLoop true rest
    if hw then (t ++ p.1, t.length + p.2)
    else (h :: (t ++ p.1), t.length + p.2)

/-- Result of `mergeCSVFiles`: the records of the merged output file, the
returned data-row count, and the filenames removed afterwards. -/
structure MergeResult where
  merged : List Rec
  totalRows : Nat
  deleted : List (List Char)
deriving DecidableEq

/-- Embedding of `mergeCSVFiles`: with no matching shard it returns count 0
without creating an output or deleting anything; otherwise it sorts the
matches byte-lexicographically, merges them in that order and deletes them
all. -/
def mergeCSVFiles (files : List NamedShard) : MergeResult :=
  if files.isEmpty then ⟨[], 0, []⟩
  else
    let sorted := sortByName files
    let p := mergeLoop false (sorted.map Prod.snd)
    ⟨p.1, p.2, sorted.map Prod.fst⟩

/-- Shard filenames produced by the rotating writer and globbed by the
merger: `<runID>_<index>.csv` with a 1-based decimal index. -/
def shardName (runID : List Char) (i : Nat) : List Char :=
  runID ++ '_' :: (Nat.toDigits 10 i ++ ('.' :: 'c' :: 's' :: 'v' :: []))

/-- Data-row count of the merge loop: each file contributes its record
count minus one (its header), regardless of the header flag. -/
theorem mergeLoop_count (hw : Bool) (L : List (List Rec)) :
    (mergeLoop hw L).2 = (L.map (fun s => s.length - 1)).sum := by
  induction L generalizing hw with
  | nil => rfl
  | cons s rest ih =>
    cases s with
    | nil => simpa [mergeLoop] using ih hw
    | cons h t =>
      cases hw <;> simp [mergeLoop, ih true]

/-- Output of the merge loop once a header has been written: the
concatenation of the tails of the files, in order. -/
theorem mergeLoop_true_out (L : List (List Rec)) :
    (mergeLoop true L).1 = (L.map List.tail).flatten := by
  induction L with
  | nil => rfl
  | cons s rest ih =>
    cases s with
    | nil => simpa [mergeLoop] using ih
    | cons h t => simp [mergeLoop, ih]

/-- Output of the merge loop before a header is written, when the first
file is non-empty: its head becomes the single header, followed by every
file's tail in order. -/
theorem mergeLoop_false_out (h : Rec) (t : List Rec) (rest : List (List Rec)) :
    (mergeLoop false ((h :: t) :: rest)).1 =
      h :: (((h :: t) :: rest).map List.tail).flatten := by
  simp [mergeLoop, mergeLoop_true_out]

/-- C1 (amended): `mergeCSVFiles` returns a data-row count equal to the sum
of the shards' data-row counts (records minus one header each), deletes
exactly the shard files, tolerates zero shards, and writes one output whose
single header is the first record of the byte-lexicographically first
shard, followed by all shard data rows in byte-lexicographic filename
order (which agrees with shard-index order only while the indices have
equally many digits). -/
theorem mergeCSVFiles_lex_spec (files : List NamedShard) :
    (mergeCSVFiles files).totalRows = (files.map (fun p => p.2.length - 1)).sum
    ∧ (mergeCSVFiles files).deleted.Perm (files.map Prod.fst)
    ∧ ((mergeCSVFiles []).merged = [] ∧ (mergeCSVFiles []).totalRows = 0
        ∧ (mergeCSVFiles []).deleted = [])
    ∧ (∀ nm h t rest, sortByName files = (nm, h :: t) :: rest →
        (mergeCSVFiles files).merged =
          h :: (((nm, h :: t) :: rest).map (fun p => p.2.tail)).flatten) := by
  have hperm : (sortByName files).Perm files := List.perm_insertionSort nameLe files
  have hne : ¬ files.isEmpty = true → files ≠ [] := by
    intro hf h'
    subst h'
    simp at hf
  refine ⟨?_, ?_, ⟨rfl, rfl, rfl⟩, ?_⟩
  · by_cases hf : files.isEmpty = true
    · have h0 : files = [] := List.isEmpty_iff.mp hf
      subst h0
      rfl
    · simp only [mergeCSVFiles, hf, if_false, Bool.false_eq_true]
      rw [mergeLoop_count, List.map_map]
      exact (hperm.map (fun p => p.2.length - 1)).sum_eq
  · by_cases hf : files.isEmpty = true
    · have h0 : files = [] := List.isEmpty_iff.mp hf
      subst h0
      exact List.Perm.refl _
    · simp only [mergeCSVFiles, hf, if_false, Bool.false_eq_true]
      exact hperm.map Prod.fst
  · intro nm h t rest hsort
    have hf : ¬ files.isEmpty = true := by
      intro hf
      have h0 : files = [] := List.isEmpty_iff.mp hf
      subst h0
      simp [sortByName, List.insertionSort] at hsort
    simp only [mergeCSVFiles, hf, if_false, Bool.false_eq_true]
    rw [hsort]
    simp only [List.map_cons]
    rw [mergeLoop_false_out]
    simp only [List.map_cons, List.map_map, List.flatten_cons, List.tail_cons]
    rfl

/-- Two concrete shards used to instantiate the merge theorem. -/
def filesW : List NamedShard :=
  [(shardName ['j'] 1, [["h"], ["a"]]),
   (shardName ['j'] 2, [["h"], ["b"], ["c"]])]

/-- Witness for C1: merging two concrete shards yields three data rows and
one header. -/
theorem mergeCSVFiles_lex_spec_witness :
    (mergeCSVFiles filesW).totalRows = 3
    ∧ (mergeCSVFiles filesW).merged = [["h"], ["a"], ["b"], ["c"]] := by
  have h := mergeCSVFiles_lex_spec filesW
  refine ⟨h.1.trans (by decide), ?_⟩
  have h4 := h.2.2.2 (shardName ['j'] 1) ["h"] [["a"]]
    [(shardName ['j'] 2, [["h"], ["b"], ["c"]])] (by decide)
  exact h4.trans (by decide)

/-- Ten shards named `j_1.csv` … `j_10.csv`, each holding a header and one
marked data row. -/
def files10 : List NamedShard :=
  [(shardName ['j'] 1, [["h"], ["r1"]]),
   (shardName ['j'] 2, [["h"], ["r2"]]),
   (shardName ['j'] 3, [["h"], ["r3"]]),
   (shardName ['j'] 4, [["h"], ["r4"]]),
   (shardName ['j'] 5, [["h"], ["r5"]]),
   (shardName ['j'] 6, [["h"], ["r6"]]),
   (shardName ['j'] 7, [["h"], ["r7"]]),
   (shardName ['j'] 8, [["h"], ["r8"]]),
   (shardName ['j'] 9, [["h"], ["r9"]]),
   (shardName ['j'] 10, [["h"], ["r10"]])]

/-- Counterexample to C1 as stated: with ten shards the merged data rows
follow byte-lexicographic filename order (`_10` sorts between `_1` and
`_2`), not ascending shard-index order. -/
theorem mergeCSVFiles_not_index_order :
    (mergeCSVFiles files10).merged =
      [["h"], ["r1"], ["r10"], ["r2"], ["r3"], ["r4"], ["r5"], ["r6"],
        ["r7"], ["r8"], ["r9"]]
    ∧ (mergeCSVFiles files10).merged ≠
      [["h"], ["r1"], ["r2"], ["r3"], ["r4"], ["r5"], ["r6"], ["r7"],
        ["r8"], ["r9"], ["r10"]] := by
  constructor
  · decide
  · decide

/-! ## Adaptive budget calculator (inside `scrapeJob`, web runner)

The scheduling loop computes `estimatedPerJob` from the mode, clamps
concurrency and depth with `max(1, ·)`, computes
`len(seedJobs)*estimatedPerJob*max(1,depth)/concurrency + 120` with integer
division, floors the result at 180, and overrides a positive caller budget
(`job.Data.MaxTime` in whole seconds) that is below the minimum. -/

/-- Seconds-per-job estimate: 15 in direct-request (fast) mode, 45 in
rendered-page mode. -/
def estimatedPerJob (fastMode : Bool) : Nat := if fastMode then 15 else 45

/-- The `minimumRequired` computation of `scrapeJob`. -/
def minimumRequired (seedCount : Nat) (fastMode : Bool) (depth concurrency : Nat) : Nat :=
  if seedCount * estimatedPerJob fastMode * Nat.max 1 depth / Nat.max 1 concurrency + 120 < 180
  then 180
  else seedCount * estimatedPerJob fastMode * Nat.max 1 depth / Nat.max 1 concurrency + 120

/-- The `allowedSeconds` computation of `scrapeJob`: a positive caller
budget below the minimum is overridden; with no caller budget the minimum
is used. -/
def allowedSeconds (seedCount : Nat) (fastMode : Bool)
    (depth concurrency maxTimeSeconds : Nat) : Nat :=
  if 0 < maxTimeSeconds then
    if maxTimeSeconds < minimumRequired seedCount fastMode depth concurrency then
      minimumRequired seedCount fastMode depth concurrency
    else maxTimeSeconds
  else minimumRequired seedCount fastMode depth concurrency

/-- The computed minimum never goes below 180 seconds. -/
theorem minimumRequired_ge_180 (seedCount : Nat) (fastMode : Bool)
    (depth concurrency : Nat) :
    180 ≤ minimumRequired seedCount fastMode depth concurrency := by
  unfold minimumRequired
  split <;> omega

/-- C2: with depth and concurrency at least 1 the scheduling loop's minimum
equals `seedCount × nominalPerJob × maxPages / concurrency + 120` floored
at 180; a caller budget at least the minimum is honoured, a smaller
positive one is overridden, an absent one defaults to the minimum; and the
two concrete examples of the specification hold. -/
theorem budget_calculator_spec (seedCount depth concurrency : Nat) (fastMode : Bool)
    (hd : 1 ≤ depth) (hc : 1 ≤ concurrency) :
    minimumRequired seedCount fastMode depth concurrency
      = Nat.max (seedCount * estimatedPerJob fastMode * depth / concurrency + 120) 180
    ∧ (∀ u, minimumRequired seedCount fastMode depth concurrency ≤ u →
        allowedSeconds seedCount fastMode depth concurrency u = u)
    ∧ (∀ u, 0 < u → u < minimumRequired seedCount fastMode depth concurrency →
        allowedSeconds seedCount fastMode depth concurrency u
          = minimumRequired seedCount fastMode depth concurrency)
    ∧ allowedSeconds seedCount fastMode depth concurrency 0
        = minimumRequired seedCount fastMode depth concurrency
    ∧ minimumRequired 10 true 1 5 = 180
    ∧ allowedSeconds 10 true 1 5 60 = 180 := by
  have hmd : Nat.max 1 depth = depth := Nat.max_eq_right hd
  have hmc : Nat.max 1 concurrency = concurrency := Nat.max_eq_right hc
  refine ⟨?_, ?_, ?_, ?_, by decide, by decide⟩
  · unfold minimumRequired
    rw [hmd, hmc]
    split
    · next h => exact (Nat.max_eq_right (le_of_lt h)).symm
    · next h => exact (Nat.max_eq_left (le_of_not_lt h)).symm
  · intro u hu
    have h180 := minimumRequired_ge_180 seedCount fastMode depth concurrency
    unfold allowedSeconds
    rw [if_pos (by omega), if_neg (by omega)]
  · intro u hu0 hu
    unfold allowedSeconds
    rw [if_pos hu0, if_pos hu]
  · unfold allowedSeconds
    rw [if_neg (by omega)]

/-- Witness for C2: the specification's two numeric examples, obtained by
instantiating the calculator theorem. -/
theorem budget_calculator_spec_witness :
    minimumRequired 10 true 1 5 = 180 ∧ allowedSeconds 10 true 1 5 60 = 180 :=
  ⟨(budget_calculator_spec 10 1 5 true (by decide) (by decide)).2.2.2.2.1,
   (budget_calculator_spec 10 1 5 true (by decide) (by decide)).2.2.2.2.2⟩

/-! ## The paginating search job (`gmaps.SearchJob`)

`SearchJob.Process` strips a one-line anti-hijacking prefix, decodes the
body through the external `ParseSearchResults`, records the pre-filter
entry count, geo-filters (external helper `filterAndSortEntriesWithinRadius`,
passed here as an opaque function), deduplicates through the shared
`Deduper`, conditionally emits one next-page job, and reports to the exit
monitor.  Coordinates are float64 values that the embedded code only
parses, tests against zero, and carries; they are modelled as exact
decimals. -/

/-- Exact decimal `mantissa / 10 ^ exp`, modelling the float64 values the
sources parse, compare with zero, and carry. -/
structure Dec where
  mantissa : Int
  exp : Nat
deriving DecidableEq

/-- Range test `-bound ≤ d ≤ bound` on an exact decimal. -/
def Dec.absLeNat (d : Dec) (bound : Nat) : Bool :=
  decide (-((bound : Int) * 10 ^ d.exp) ≤ d.mantissa
    ∧ d.mantissa ≤ (bound : Int) * 10 ^ d.exp)

/-- `resultsPerPage` from `gmaps/searchjob.go`. -/
def resultsPerPage : Nat := 20

/-- `maxPaginationPages` from `gmaps/searchjob.go`: max 6 pages = 120
results per query. -/
def maxPaginationPages : Nat := 6

/-- Numeric stand-in for the external `scrapemate.PriorityMedium` default;
the claims only use priorities relatively. -/
def priorityMedium : Nat := 2

/-- The query parameters a search job carries (`gmaps.MapSearchParams`
restricted to the fields the embedded code reads; the viewport constants
are write-only in the sources). -/
structure MapSearchParams where
  query : List Char
  hl : String
  lat : Dec
  lon : Dec
  zoomLvl : Dec
  radius : Dec
deriving DecidableEq

/-- State of a `gmaps.SearchJob`: the deduper and exit monitor are shared
by reference in the sources, so the job itself only records whether they
are attached; their state is threaded explicitly through `processCore`. -/
structure SearchJob where
  params : MapSearchParams
  priority : Nat
  searchDelay : Nat
  hasExitMonitor : Bool
  hasDeduper : Bool
  offset : Nat
  pageNum : Nat
  maxPages : Nat
deriving DecidableEq

/-- The `SearchJobOptions` functional options. -/
inductive SearchJobOption
  | withExitMonitor
  | withDelay (d : Nat)
  | withDeduper
  | withMaxPages (n : Int)
deriving DecidableEq

/-- Application of one option: `WithSearchJobMaxPages` only accepts
arguments in `1..maxPaginationPages` and otherwise leaves the job
unchanged. -/
def applySearchJobOption (j : SearchJob) : SearchJobOption → SearchJob
  | SearchJobOption.withExitMonitor => { j with hasExitMonitor := true }
  | SearchJobOption.withDelay d => { j with searchDelay := d }
  | SearchJobOption.withDeduper => { j with hasDeduper := true }
  | SearchJobOption.withMaxPages n =>
    if 0 < n ∧ n ≤ (maxPaginationPages : Int) then { j with maxPages := n.toNat } else j

/-- `gmaps.NewSearchJob`: page 0, offset 0, medium priority, default max
pages, then the options in order. -/
def NewSearchJob (params : MapSearchParams) (opts : List SearchJobOption) : SearchJob :=
  opts.foldl applySearchJobOption
    { params := params, priority := priorityMedium, searchDelay := 0,
      hasExitMonitor := false, hasDeduper := false, offset := 0, pageNum := 0,
      maxPages := maxPaginationPages }

/-- A decoded listing (`gmaps.Entry` restricted to the fields
`SearchJob.Process` reads: the dedup key sources). -/
structure Entry where
  cid : String
  title : String
  address : String
deriving DecidableEq

/-- The dedup key of an entry: the CID when present, else
`title|address`. -/
def entryKey (e : Entry) : String :=
  if e.cid = "" then e.title ++ "|" ++ e.address else e.cid

/-- The dedup loop of `SearchJob.Process`: admit each entry's key through
the shared set (`AddIfNotExists`), keeping the entry exactly when its key
is non-empty and previously unseen. -/
def dedupEntries (seen : List String) (es : List Entry) : List Entry × List String :=
  es.foldl
    (fun acc e =>
      if entryKey e ≠ "" ∧ entryKey e ∉ acc.2 then
        (acc.1 ++ [e], entryKey e :: acc.2)
      else acc)
    ([], seen)

/-- The increments `SearchJob.Process` sends to the exit monitor, in
order. -/
inductive MonitorEvent
  | incrSeedCompleted (n : Nat)
  | incrPlacesFound (n : Nat)
  | incrPlacesCompleted (n : Nat)
deriving DecidableEq

/-- The next-page job built by `SearchJob.Process`: same params, deduper,
exit monitor, delay and max pages; offset `(pageNum+1)*resultsPerPage`;
page number `pageNum+1`; priority one step below the parent. -/
def nextSearchJob (j : SearchJob) : SearchJob :=
  { params := j.params, priority := j.priority + 1, searchDelay := j.searchDelay,
    hasExitMonitor := j.hasExitMonitor, hasDeduper := j.hasDeduper,
    offset := (j.pageNum + 1) * resultsPerPage, pageNum := j.pageNum + 1,
    maxPages := j.maxPages }

/-- Everything `SearchJob.Process` produces after a successful decode. -/
structure ProcessResult where
  entries : List Entry
  nextJobs : List SearchJob
  events : List MonitorEvent
  seen : List String
deriving DecidableEq

/-- The post-decode body of `SearchJob.Process`: filter, dedup, pagination
decision on the pre-filter count, then the monitor reports. -/
def processCore (j : SearchJob) (decoded : List Entry)
    (geoFilter : List Entry → List Entry) (seen : List String) : ProcessResult :=
  let rawCount := decoded.length
  let filtered := geoFilter decoded
  let dedup := if j.hasDeduper then dedupEntries seen filtered else (filtered, seen)
  let nextJobs :=
    if resultsPerPage ≤ rawCount ∧ j.pageNum + 1 < j.maxPages then [nextSearchJob j]
    else []
  let spawnEvents :=
    if j.hasExitMonitor ∧ nextJobs ≠ [] then [MonitorEvent.incrPlacesFound 1] else []
  let reportEvents :=
    if j.hasExitMonitor then
      [(if j.pageNum = 0 then MonitorEvent.incrSeedCompleted 1
        else MonitorEvent.incrPlacesCompleted 1),
        MonitorEvent.incrPlacesFound dedup.1.length,
        MonitorEvent.incrPlacesCompleted dedup.1.length]
    else []
  ⟨dedup.1, nextJobs, spawnEvents ++ reportEvents, dedup.2⟩

/-- C3: a page-k job emits exactly one child iff the pre-filter entry
count is at least 20 and `k+1` is below max pages; the child keeps the
parent's query parameters, deduper, exit monitor and delay, sits at offset
`(k+1)*20` and page `k+1`, and its numeric priority is the parent's plus
one, hence strictly lower. -/
theorem searchjob_child_emission (j : SearchJob) (decoded : List Entry)
    (geoFilter : List Entry → List Entry) (seen : List String) :
    (processCore j decoded geoFilter seen).nextJobs =
      (if resultsPerPage ≤ decoded.length ∧ j.pageNum + 1 < j.maxPages then
        [{ params := j.params, priority := j.priority + 1,
           searchDelay := j.searchDelay, hasExitMonitor := j.hasExitMonitor,
           hasDeduper := j.hasDeduper, offset := (j.pageNum + 1) * resultsPerPage,
           pageNum := j.pageNum + 1, maxPages := j.maxPages }]
      else [])
    ∧ (processCore j decoded geoFilter seen).nextJobs.all
        (fun c => decide (j.priority < c.priority)) = true := by
  constructor
  · rfl
  · simp only [processCore, nextSearchJob]
    split
    · simp
    · simp

/-- C4: with an exit monitor attached the monitor traffic of one
`Process` call is, in order: a places-found increment of 1 exactly when a
child was spawned, then seeds-completed +1 for page 0 or
places-completed +1 for a later page, then places-found and
places-completed each incremented by the surviving-entry count. -/
theorem searchjob_monitor_reporting (j : SearchJob) (decoded : List Entry)
    (geoFilter : List Entry → List Entry) (seen : List String)
    (hmon : j.hasExitMonitor = true) :
    (processCore j decoded geoFilter seen).events =
      (if (processCore j decoded geoFilter seen).nextJobs ≠ [] then
        [MonitorEvent.incrPlacesFound 1]
      else [])
      ++ [(if j.pageNum = 0 then MonitorEvent.incrSeedCompleted 1
          else MonitorEvent.incrPlacesCompleted 1),
          MonitorEvent.incrPlacesFound
            (processCore j decoded geoFilter seen).entries.length,
          MonitorEvent.incrPlacesCompleted
            (processCore j decoded geoFilter seen).entries.length] := by
  simp only [processCore, hmon, true_and, if_true]

/-- A concrete page-0 job with the exit monitor attached. -/
def jobW : SearchJob :=
  { params := { query := ['q'], hl := "en", lat := ⟨0, 0⟩, lon := ⟨0, 0⟩,
                zoomLvl := ⟨15, 0⟩, radius := ⟨10000, 0⟩ },
    priority := priorityMedium, searchDelay := 0, hasExitMonitor := true,
    hasDeduper := false, offset := 0, pageNum := 0, maxPages := 6 }

/-- Witness for C4: a page-0 job, a full page of 20 identical raw entries
and the identity filter produce the spawn increment followed by the three
completion increments. -/
theorem searchjob_monitor_reporting_witness :
    (processCore jobW (List.replicate 20 ⟨"c", "t", "a"⟩) id []).events =
      [MonitorEvent.incrPlacesFound 1, MonitorEvent.incrSeedCompleted 1,
        MonitorEvent.incrPlacesFound 20, MonitorEvent.incrPlacesCompleted 20] := by
  have h := searchjob_monitor_reporting jobW (List.replicate 20 ⟨"c", "t", "a"⟩)
    id [] (by decide)
  exact h.trans (by decide)

/-! ## Pagination chains (C5)

A chain is a seed job followed by the pagination jobs each `Process` call
emitted for the next element: the external dispatch engine requeues the
(at most one) child of each processed job. -/

/-- `stepsTo j c` holds when some `Process` call on `j` (for some decoded
body, geo filter and deduper state) emits `c` as its next-page job. -/
def stepsTo (j c : SearchJob) : Prop :=
  ∃ decoded geoFilter seen, c ∈ (processCore j decoded geoFilter seen).nextJobs

/-- A list of jobs is a pagination chain when every element steps to the
next. -/
def IsChain : List SearchJob → Prop
  | [] => True
  | [_] => True
  | a :: b :: rest => stepsTo a b ∧ IsChain (b :: rest)

/-- An emitted child advances the page number by one, keeps max pages, and
exists only while the next page is still below max pages. -/
theorem stepsTo_props {j c : SearchJob} (h : stepsTo j c) :
    c.pageNum = j.pageNum + 1 ∧ c.maxPages = j.maxPages
      ∧ j.pageNum + 1 < j.maxPages := by
  obtain ⟨d, f, s, hc⟩ := h
  have hc' : c ∈ (if resultsPerPage ≤ d.length ∧ j.pageNum + 1 < j.maxPages
      then [nextSearchJob j] else []) := hc
  by_cases hcond : resultsPerPage ≤ d.length ∧ j.pageNum + 1 < j.maxPages
  · rw [if_pos hcond, List.mem_singleton] at hc'
    subst hc'
    exact ⟨rfl, rfl, hcond.2⟩
  · rw [if_neg hcond] at hc'
    simp at hc'

/-- Along a chain the head's page number plus the number of later elements
stays below max pages (unless the chain is a single job). -/
theorem chain_length_bound (a : SearchJob) (rest : List SearchJob)
    (h : IsChain (a :: rest)) :
    rest = [] ∨ a.pageNum + rest.length < a.maxPages := by
  induction rest generalizing a with
  | nil => exact Or.inl rfl
  | cons b rs ih =>
    obtain ⟨hstep, hch⟩ := h
    obtain ⟨hpn, hmp, hlt⟩ := stepsTo_props hstep
    right
    rcases ih b hch with hnil | hbound
    · subst hnil
      simpa using hlt
    · rw [hpn, hmp] at hbound
      simp only [List.length_cons]
      omega

/-- `NewSearchJob` always yields page 0 with max pages in
`1..maxPaginationPages`, whatever options are applied. -/
theorem NewSearchJob_fields (params : MapSearchParams) (opts : List SearchJobOption) :
    (NewSearchJob params opts).pageNum = 0
    ∧ 1 ≤ (NewSearchJob params opts).maxPages
    ∧ (NewSearchJob params opts).maxPages ≤ maxPaginationPages
    ∧ (NewSearchJob params opts).params = params := by
  have key : ∀ (os : List SearchJobOption) (j : SearchJob),
      1 ≤ j.maxPages → j.maxPages ≤ maxPaginationPages →
      (os.foldl applySearchJobOption j).pageNum = j.pageNum
      ∧ 1 ≤ (os.foldl applySearchJobOption j).maxPages
      ∧ (os.foldl applySearchJobOption j).maxPages ≤ maxPaginationPages
      ∧ (os.foldl applySearchJobOption j).params = j.params := by
    intro os
    induction os with
    | nil => exact fun j h1 h2 => ⟨rfl, h1, h2, rfl⟩
    | cons o os ih =>
      intro j h1 h2
      cases o with
      | withExitMonitor => simpa using ih { j with hasExitMonitor := true } h1 h2
      | withDelay d => simpa using ih { j with searchDelay := d } h1 h2
      | withDeduper => simpa using ih { j with hasDeduper := true } h1 h2
      | withMaxPages n =>
        by_cases hn : 0 < n ∧ n ≤ (maxPaginationPages : Int)
        · have h1' : 1 ≤ n.toNat := by omega
          have h2' : n.toNat ≤ maxPaginationPages := by
            have := hn.2
            simp only [maxPaginationPages] at this ⊢
            omega
          simpa [applySearchJobOption, hn] using
            ih { j with maxPages := n.toNat } h1' h2'
        · simpa [applySearchJobOption, hn] using ih j h1 h2
  exact key opts
    { params := params, priority := priorityMedium, searchDelay := 0,
      hasExitMonitor := false, hasDeduper := false, offset := 0, pageNum := 0,
      maxPages := maxPaginationPages }
    (show 1 ≤ maxPaginationPages by decide)
    (le_refl maxPaginationPages)

/-- C5: a pagination chain started by `NewSearchJob` has at most
`maxPages` elements, `maxPages` never exceeds the hard cap 6 (an option
argument outside `1..6` leaves the job unchanged), and with at most 20 raw
records fetched per page a chain fetches at most `6 × 20 = 120` raw
records. -/
theorem pagination_bound (params : MapSearchParams) (opts : List SearchJobOption)
    (rest : List SearchJob)
    (hchain : IsChain (NewSearchJob params opts :: rest)) :
    (NewSearchJob params opts :: rest).length ≤ (NewSearchJob params opts).maxPages
    ∧ (NewSearchJob params opts).maxPages ≤ maxPaginationPages
    ∧ (∀ n : Int, ¬(0 < n ∧ n ≤ (maxPaginationPages : Int)) →
        ∀ j : SearchJob, applySearchJobOption j (SearchJobOption.withMaxPages n) = j)
    ∧ (∀ rawCounts : List Nat,
        rawCounts.length = (NewSearchJob params opts :: rest).length →
        (∀ r ∈ rawCounts, r ≤ resultsPerPage) →
        rawCounts.sum ≤ maxPaginationPages * resultsPerPage) := by
  obtain ⟨hpn, h1, h6, _⟩ := NewSearchJob_fields params opts
  have hlen : (NewSearchJob params opts :: rest).length
      ≤ (NewSearchJob params opts).maxPages := by
    rcases chain_length_bound _ _ hchain with hnil | hbound
    · subst hnil
      simpa using h1
    · rw [hpn] at hbound
      simp only [List.length_cons]
      omega
  refine ⟨hlen, h6, ?_, ?_⟩
  · intro n hn j
    simp [applySearchJobOption, hn]
  · intro rawCounts hrlen hr
    have hsum : rawCounts.sum ≤ rawCounts.length • resultsPerPage :=
      List.sum_le_card_nsmul rawCounts resultsPerPage hr
    rw [smul_eq_mul] at hsum
    have : rawCounts.length ≤ maxPaginationPages := by
      rw [hrlen]
      exact le_trans hlen h6
    calc rawCounts.sum ≤ rawCounts.length * resultsPerPage := hsum
      _ ≤ maxPaginationPages * resultsPerPage :=
        Nat.mul_le_mul_right resultsPerPage this

/-- Witness for C5: the one-element chain of a fresh seed job with an
out-of-range max-pages request keeps the default cap 6. -/
theorem pagination_bound_witness :
    [NewSearchJob jobW.params [SearchJobOption.withMaxPages 9]].length
      ≤ (NewSearchJob jobW.params [SearchJobOption.withMaxPages 9]).maxPages
    ∧ (NewSearchJob jobW.params [SearchJobOption.withMaxPages 9]).maxPages
      ≤ maxPaginationPages := by
  have h := pagination_bound jobW.params [SearchJobOption.withMaxPages 9] []
    (by constructor)
  exact ⟨h.1, h.2.1⟩

/-! ## Response-body handling (`removeFirstLine` and the decode guard, C8)

The response body is a byte string, modelled as `List Nat`; the newline
byte is 10.  The external decoder `ParseSearchResults` is passed in as a
function; an `Except.error` return carries no entries and no child jobs
and reaches the dispatch engine's retry handling. -/

/-- `gmaps.removeFirstLine`: empty input is returned as is; otherwise
everything up to and including the first newline byte is dropped, and a
body with no newline at all becomes empty. -/
def removeFirstLine (data : List Nat) : List Nat :=
  if data.isEmpty then data
  else
    match data.findIdx? (fun b => b == 10) with
    | none => []
    | some i => data.drop (i + 1)

/-- `SearchJob.Process` up to the decode: strip the anti-hijacking line,
fail on an empty remainder, fail on a decoder error, otherwise run the
post-decode body. -/
def processSearchJob (j : SearchJob) (respBody : List Nat)
    (decode : List Nat → Except String (List Entry))
    (geoFilter : List Entry → List Entry) (seen : List String) :
    Except String ProcessResult :=
  if (removeFirstLine respBody).length = 0 then Except.error "empty response body"
  else
    match decode (removeFirstLine respBody) with
    | Except.error e => Except.error ("failed to parse search results: " ++ e)
    | Except.ok entries => Except.ok (processCore j entries geoFilter seen)

/-- The first newline in `pre ++ 10 :: post` with `10 ∉ pre` sits at index
`pre.length`. -/
theorem findIdx_newline (pre post : List Nat) (hpre : 10 ∉ pre) :
    (pre ++ 10 :: post).findIdx? (fun b => b == 10) = some pre.length := by
  induction pre with
  | nil => simp [List.findIdx?_cons]
  | cons a as ih =>
    have ha : (a == 10) = false := by
      simp only [beq_eq_false_iff_ne, ne_eq]
      intro h
      exact hpre (by simp [h])
    have ihs := ih (fun h => hpre (List.mem_cons_of_mem a h))
    simp [List.findIdx?_cons, ha, ihs]

/-- A list without a newline has no newline index. -/
theorem findIdx_no_newline (data : List Nat) (h : 10 ∉ data) :
    data.findIdx? (fun b => b == 10) = none := by
  induction data with
  | nil => rfl
  | cons a as ih =>
    have ha : (a == 10) = false := by
      simp only [beq_eq_false_iff_ne, ne_eq]
      intro h'
      exact h (by simp [h'])
    have ihs := ih (fun h' => h (List.mem_cons_of_mem a h'))
    simp [List.findIdx?_cons, ha, ihs]

/-- C8: `removeFirstLine` drops exactly the first line (everything up to
and including the first newline byte), maps a newline-free body to the
empty remainder, and an empty remainder makes `Process` return the
empty-body error — hence no entries and no child jobs reach the engine,
only the error for its retry handling. -/
theorem removeFirstLine_spec :
    (∀ pre post : List Nat, 10 ∉ pre →
      removeFirstLine (pre ++ 10 :: post) = post)
    ∧ (∀ data : List Nat, 10 ∉ data → removeFirstLine data = [])
    ∧ (∀ (j : SearchJob) (body : List Nat)
        (decode : List Nat → Except String (List Entry))
        (geoFilter : List Entry → List Entry) (seen : List String),
        removeFirstLine body = [] →
        processSearchJob j body decode geoFilter seen
          = Except.error "empty response body") := by
  refine ⟨?_, ?_, ?_⟩
  · intro pre post hpre
    have hne : (pre ++ 10 :: post).isEmpty = false := by
      cases pre <;> rfl
    rw [removeFirstLine, hne]
    simp only [Bool.false_eq_true, if_false, findIdx_newline pre post hpre]
    rw [show pre ++ 10 :: post = (pre ++ [10]) ++ post by simp]
    rw [show pre.length + 1 = (pre ++ [10]).length by simp]
    exact List.drop_left (pre ++ [10]) post
  · intro data h
    cases data with
    | nil => rfl
    | cons a as =>
      rw [removeFirstLine]
      simp only [List.isEmpty_cons, Bool.false_eq_true, if_false,
        findIdx_no_newline _ h]
  · intro j body decode geoFilter seen h
    rw [processSearchJob, h]
    rfl

/-- Witness for C8: concrete bodies exercising the three conjuncts — the
line `A\nBC` keeps `BC`, the newline-free `A` becomes empty, and the
newline-free body makes `Process` fail with the empty-body error. -/
theorem removeFirstLine_spec_witness :
    removeFirstLine ([65] ++ 10 :: [66, 67]) = [66, 67]
    ∧ removeFirstLine [65] = []
    ∧ processSearchJob jobW [65] (fun _ => Except.ok []) id []
        = Except.error "empty response body" :=
  ⟨removeFirstLine_spec.1 [65] [66, 67] (by decide),
   removeFirstLine_spec.2.1 [65] (by decide),
   removeFirstLine_spec.2.2 jobW [65] (fun _ => Except.ok []) id []
     (removeFirstLine_spec.2.1 [65] (by decide))⟩

/-! ## Seed building in direct-request mode (`runner.CreateSeedJobs`, C6)

Only the fast-mode branch is embedded: the rendered-page branch builds a
`GmapJob` through an external constructor.  The float parser
(`strconv.ParseFloat`) is external, so the seed builder is parameterized
over it; `parseDecimal` below is the concrete sign-and-decimal instance
used for witnesses and counterexamples.  Query lines are the scanner's
newline-split lines, modelled directly as a list of byte strings. -/

/-- Digit-string value, `none` on an empty or non-digit string. -/
def digitsToNat (cs : List Char) : Option Nat :=
  if cs.isEmpty then none
  else
    cs.foldl
      (fun acc c =>
        match acc with
        | none => none
        | some a => if c.isDigit then some (a * 10 + (c.toNat - 48)) else none)
      (some 0)

/-- Concrete decimal parser modelling `strconv.ParseFloat` on plain
sign-and-decimal inputs (`-?digits(.digits)?`), exactly. -/
def parseDecimal (cs : List Char) : Option Dec :=
  let signed : Bool × List Char :=
    match cs with
    | '-' :: rest => (true, rest)
    | _ => (false, cs)
  match splitOnChar '.' signed.2 with
  | [ip] =>
    (digitsToNat ip).map
      (fun n => ⟨if signed.1 then -(n : Int) else (n : Int), 0⟩)
  | [ip, fp] =>
    match digitsToNat ip, digitsToNat fp with
    | some n, some f =>
      some ⟨(if signed.1 then -1 else 1) * ((n : Int) * 10 ^ fp.length + f),
        fp.length⟩
    | _, _ => none
  | _ => none

/-- Parsing of the global geo anchor at the top of `CreateSeedJobs`: only a
non-empty string other than `0,0` is considered, both comma-separated
parts are trimmed and parsed, and the result is kept only inside the
latitude/longitude ranges; otherwise the anchor stays `(0, 0)`. -/
def parseGlobalGeo (pf : List Char → Option Dec) (geo : List Char) : Dec × Dec :=
  if geo ≠ [] ∧ geo ≠ ('0' :: ',' :: '0' :: []) then
    match splitOnChar ',' geo with
    | [p0, p1] =>
      match pf (trimChars p0), pf (trimChars p1) with
      | some la, some lo =>
        if la.absLeNat 90 && lo.absLeNat 180 then (la, lo) else (⟨0, 0⟩, ⟨0, 0⟩)
      | _, _ => (⟨0, 0⟩, ⟨0, 0⟩)
    | _ => (⟨0, 0⟩, ⟨0, 0⟩)
  else (⟨0, 0⟩, ⟨0, 0⟩)

/-- Parsing of a per-query `#!geo#lat,lon` payload: trim the whole
payload, split on the comma, require exactly two parts and both to parse;
no range check is applied here (faithful to the source). -/
def parsePerQueryGeo (pf : List Char → Option Dec) (after : List Char) :
    Option (Dec × Dec) :=
  match splitOnChar ',' (trimChars after) with
  | [a, b] =>
    match pf a with
    | some la =>
      match pf b with
      | some lo => some (la, lo)
      | none => none
    | none => none
  | _ => none

/-- The separator `#!#` of the id directive. -/
def idSep : List Char := ['#', '!', '#']

/-- The separator `#!geo#` of the per-query geo directive. -/
def geoSep : List Char := ['#', '!', 'g', 'e', 'o', '#']

/-- The query text after both directive strips, mirroring the successive
reassignments of the `query` local in `CreateSeedJobs`. -/
def strippedQueryOf (line : List Char) : List Char :=
  let q0 := trimChars line
  let q1 := match cutList idSep q0 with
    | some (before, _) => trimChars before
    | none => q0
  match cutList geoSep q1 with
  | some (before, _) => trimChars before
  | none => q1

/-- The per-query geo override of a line, mirroring the
`hasPerQueryGeo` / `queryLat` / `queryLon` locals: the `#!geo#` cut is
taken on the id-stripped query. -/
def perQueryGeoOf (pf : List Char → Option Dec) (line : List Char) :
    Option (Dec × Dec) :=
  let q0 := trimChars line
  let q1 := match cutList idSep q0 with
    | some (before, _) => trimChars before
    | none => q0
  match cutList geoSep q1 with
  | some (_, after) => parsePerQueryGeo pf after
  | none => none

/-- One loop iteration of `CreateSeedJobs` in fast mode: an empty trimmed
line yields nothing; a line whose per-query geo does not parse while the
global anchor is `(0, 0)` is silently skipped; otherwise a `SearchJob` is
built on the (per-query or global) anchor with the options the source
passes. -/
def processQueryLineFast (pf : List Char → Option Dec) (lat lon : Dec)
    (langCode : String) (maxDepth : Int) (zoom : Int) (radius : Dec)
    (dedup exitMon : Bool) (searchDelay : Nat) (line : List Char) :
    Option SearchJob :=
  if (trimChars line).isEmpty then none
  else
    let pq := perQueryGeoOf pf line
    if pq.isNone ∧ lat.mantissa = 0 ∧ lon.mantissa = 0 then none
    else
      some (NewSearchJob
        { query := strippedQueryOf line, hl := langCode,
          lat := (pq.map Prod.fst).getD lat, lon := (pq.map Prod.snd).getD lon,
          zoomLvl := ⟨zoom, 0⟩, radius := radius }
        ((if dedup then [SearchJobOption.withDeduper] else [])
          ++ (if exitMon then [SearchJobOption.withExitMonitor] else [])
          ++ (if 0 < searchDelay then [SearchJobOption.withDelay searchDelay] else [])
          ++ (if 1 < maxDepth then [SearchJobOption.withMaxPages maxDepth] else [])))

/-- `CreateSeedJobs` in fast mode: parse the global anchor, clamp zoom to
`[1,21]` (reset to 15 outside) and reset a negative radius to 10000 m,
then process each line; reading a line list never fails, so no error is
produced. -/
def CreateSeedJobsFast (pf : List Char → Option Dec) (langCode : String)
    (lines : List (List Char)) (maxDepth : Int) (geoCoordinates : List Char)
    (zoom : Int) (radius : Dec) (dedup exitMon : Bool) (searchDelay : Nat) :
    List SearchJob :=
  let g := parseGlobalGeo pf geoCoordinates
  let zoomAdj := if zoom < 1 ∨ 21 < zoom then 15 else zoom
  let radiusAdj : Dec := if radius.mantissa < 0 then ⟨10000, 0⟩ else radius
  lines.filterMap
    (processQueryLineFast pf g.1 g.2 langCode maxDepth zoomAdj radiusAdj
      dedup exitMon searchDelay)

/-- Query parameters of the job built from `bar#!geo#0,0` under an unset
global anchor. -/
def ceParams : MapSearchParams :=
  { query := "bar".data, hl := "en", lat := ⟨0, 0⟩, lon := ⟨0, 0⟩,
    zoomLvl := ⟨15, 0⟩, radius := ⟨10000, 0⟩ }

/-- Counterexample to C6 as stated: with no global anchor, the query
`bar#!geo#0,0` resolves to the zero coordinate, yet fast-mode seed
building emits one job for it (the skip test only asks whether a
per-query directive parsed, not whether it is non-zero). -/
theorem createSeedJobs_zero_anchor_emitted :
    CreateSeedJobsFast parseDecimal "en" ["bar#!geo#0,0".data] 1 [] 15
        ⟨10000, 0⟩ false false 0
      = [NewSearchJob ceParams []]
    ∧ (NewSearchJob ceParams []).params.lat.mantissa = 0
    ∧ (NewSearchJob ceParams []).params.lon.mantissa = 0 :=
  ⟨by decide, by decide, by decide⟩

/-- C6 (amended): in fast mode a non-blank query is skipped — silently,
with no job and no error — iff its `#!geo#` payload does not parse to two
floats while the global anchor is `(0, 0)`; a parsed per-query directive
always yields a job and overrides the global anchor (even when it parses
to the zero coordinate), and without one the job carries the global
anchor. -/
theorem createSeedJobs_fast_skip_iff (pf : List Char → Option Dec)
    (langCode : String) (maxDepth : Int) (geo : List Char) (zoom : Int)
    (radius : Dec) (dedup exitMon : Bool) (searchDelay : Nat)
    (line : List Char) (hq : (trimChars line).isEmpty = false) :
    (CreateSeedJobsFast pf langCode [line] maxDepth geo zoom radius dedup
        exitMon searchDelay = []
      ↔ (perQueryGeoOf pf line = none
          ∧ (parseGlobalGeo pf geo).1.mantissa = 0
          ∧ (parseGlobalGeo pf geo).2.mantissa = 0))
    ∧ (∀ la lo, perQueryGeoOf pf line = some (la, lo) →
        ∃ j, CreateSeedJobsFast pf langCode [line] maxDepth geo zoom radius
            dedup exitMon searchDelay = [j]
          ∧ j.params.lat = la ∧ j.params.lon = lo)
    ∧ (perQueryGeoOf pf line = none →
        ∀ j, CreateSeedJobsFast pf langCode [line] maxDepth geo zoom radius
            dedup exitMon searchDelay = [j] →
          j.params.lat = (parseGlobalGeo pf geo).1
          ∧ j.params.lon = (parseGlobalGeo pf geo).2) := by
  have hparams : ∀ (P : MapSearchParams) (opts : List SearchJobOption),
      (NewSearchJob P opts).params = P :=
    fun P opts => (NewSearchJob_fields P opts).2.2.2
  unfold CreateSeedJobsFast
  simp only [List.filterMap_cons, List.filterMap_nil]
  unfold processQueryLineFast
  rw [hq]
  simp only [Bool.false_eq_true, if_false]
  cases hpq : perQueryGeoOf pf line with
  | some p =>
    obtain ⟨la, lo⟩ := p
    simp only [hpq, Option.isNone_some, Bool.false_eq_true, false_and, if_false,
      Option.map_some, Option.getD_some]
    refine ⟨?_, ?_, ?_⟩
    · simp
    · intro la' lo' hsome
      obtain ⟨rfl, rfl⟩ : la = la' ∧ lo = lo' := by
        have := hsome.symm.trans rfl
        simp at this
        exact ⟨this.1.symm, this.2.symm⟩
      exact ⟨_, rfl, by simp [hparams], by simp [hparams]⟩
    · intro hnone
      exact absurd hnone (by simp)
  | none =>
    simp only [hpq, Option.isNone_none, true_and, Option.map_none,
      Option.getD_none]
    by_cases hz : (parseGlobalGeo pf geo).1.mantissa = 0
        ∧ (parseGlobalGeo pf geo).2.mantissa = 0
    · rw [if_pos hz]
      refine ⟨by simpa using hz, ?_, ?_⟩
      · intro la lo hsome
        exact absurd hsome (by simp [hpq])
      · intro _ j hj
        exact absurd hj (by simp)
    · rw [if_neg hz]
      refine ⟨?_, ?_, ?_⟩
      · constructor
        · intro h
          exact absurd h (by simp)
        · intro h
          exact absurd h hz
      · intro la lo hsome
        exact absurd hsome (by simp [hpq])
      · intro _ j hj
        have hj' : NewSearchJob
            { query := strippedQueryOf line, hl := langCode,
              lat := (parseGlobalGeo pf geo).1, lon := (parseGlobalGeo pf geo).2,
              zoomLvl := ⟨if zoom < 1 ∨ 21 < zoom then 15 else zoom, 0⟩,
              radius := if radius.mantissa < 0 then ⟨10000, 0⟩ else radius }
            ((if dedup then [SearchJobOption.withDeduper] else [])
              ++ (if exitMon then [SearchJobOption.withExitMonitor] else [])
              ++ (if 0 < searchDelay then [SearchJobOption.withDelay searchDelay] else [])
              ++ (if 1 < maxDepth then [SearchJobOption.withMaxPages maxDepth] else []))
            = j := by
          have := List.cons.inj hj
          exact this.1
        rw [← hj', hparams]
        exact ⟨rfl, rfl⟩

/-- Witness for C6 (amended): a plain query under a parsed non-zero global
anchor, instantiating the skip equivalence. -/
theorem createSeedJobs_fast_skip_iff_witness :
    CreateSeedJobsFast parseDecimal "en" ["cafe".data] 1 "40.0,-73.0".data 15
        ⟨10000, 0⟩ false false 0 = []
      ↔ (perQueryGeoOf parseDecimal "cafe".data = none
          ∧ (parseGlobalGeo parseDecimal "40.0,-73.0".data).1.mantissa = 0
          ∧ (parseGlobalGeo parseDecimal "40.0,-73.0".data).2.mantissa = 0) :=
  (createSeedJobs_fast_skip_iff parseDecimal "en" 1 "40.0,-73.0".data 15
    ⟨10000, 0⟩ false false 0 "cafe".data (by decide)).1

/-! ## The scheduling loop's run execution (`webrunner.scrapeJob`, C7 and C10)

`scrapeJob`'s effect on the run record and the filesystem is modelled as
the final persisted status plus the ordered trace of its externally
visible actions.  The dispatch-engine outcome (`mate.Start`), the setup
result and the seed-build result are inputs; storage updates are modelled
as always succeeding (their error paths only log). -/

/-- Persisted run status (`web.Status*`). -/
inductive Status
  | pending
  | working
  | ok
  | failed
deriving DecidableEq

/-- Result of `mate.Start`: success, the two expected termination errors
(`context.DeadlineExceeded`, `context.Canceled`), or any other error. -/
inductive MateOutcome
  | success
  | deadlineExceeded
  | canceled
  | failure
deriving DecidableEq

/-- Externally visible actions of one `scrapeJob` call, in program
order. -/
inductive RunAction
  | updateStatus (s : Status)
  | createWriter
  | closeWriter
  | startEngine
  | waitCountUpdates
  | mergeShards
  | setCount (n : Nat)
deriving DecidableEq

/-- `errors.Is(err, context.DeadlineExceeded) || errors.Is(err,
context.Canceled)`: the outcomes `scrapeJob` does not treat as
failures. -/
def expectedTermination : MateOutcome → Bool
  | MateOutcome.deadlineExceeded => true
  | MateOutcome.canceled => true
  | _ => false

/-- Control flow of `scrapeJob`: mark working; fail an empty keyword list
before any writer exists; create the rotating writer; fail on setup error
(closing the writer); return the seed-build error with the status still
`working`; run the engine when seeds exist, failing only on an unexpected
error (the deferred close still runs); otherwise close the writer, await
the asynchronous count updates, merge the shards, record the merged count
and mark the run ok (the deferred close running once more). -/
def scrapeJobRun (keywordCount : Nat) (setupOk seedsOk : Bool)
    (seedCount : Nat) (outcome : MateOutcome) (mergedCount : Nat) :
    Status × List RunAction :=
  if keywordCount = 0 then
    (Status.failed,
      [RunAction.updateStatus Status.working, RunAction.updateStatus Status.failed])
  else if setupOk = false then
    (Status.failed,
      [RunAction.updateStatus Status.working, RunAction.createWriter,
        RunAction.closeWriter, RunAction.updateStatus Status.failed])
  else if seedsOk = false then
    (Status.working,
      [RunAction.updateStatus Status.working, RunAction.createWriter,
        RunAction.updateStatus Status.working, RunAction.closeWriter])
  else if 0 < seedCount ∧ outcome = MateOutcome.failure then
    (Status.failed,
      [RunAction.updateStatus Status.working, RunAction.createWriter,
        RunAction.startEngine, RunAction.updateStatus Status.failed,
        RunAction.closeWriter])
  else
    (Status.ok,
      [RunAction.updateStatus Status.working, RunAction.createWriter]
        ++ (if 0 < seedCount then [RunAction.startEngine] else [])
        ++ [RunAction.closeWriter, RunAction.waitCountUpdates,
            RunAction.mergeShards, RunAction.setCount mergedCount,
            RunAction.updateStatus Status.ok, RunAction.closeWriter])

/-- C7: with keywords, a successful setup and seed build, and seeds to
run, the run fails exactly when the engine returns an unexpected error;
a deadline or cancellation (like success) still closes the writer, awaits
the asynchronous count updates, merges the shards, records the merged
count and marks the run ok, in that order. -/
theorem scrapeJob_deadline_is_ok (keywordCount seedCount mergedCount : Nat)
    (outcome : MateOutcome) (hk : 0 < keywordCount) (hs : 0 < seedCount) :
    ((scrapeJobRun keywordCount true true seedCount outcome mergedCount).1
        = Status.failed
      ↔ outcome = MateOutcome.failure)
    ∧ (expectedTermination outcome = true ∨ outcome = MateOutcome.success →
        scrapeJobRun keywordCount true true seedCount outcome mergedCount =
          (Status.ok,
            [RunAction.updateStatus Status.working, RunAction.createWriter,
              RunAction.startEngine, RunAction.closeWriter,
              RunAction.waitCountUpdates, RunAction.mergeShards,
              RunAction.setCount mergedCount, RunAction.updateStatus Status.ok,
              RunAction.closeWriter])) := by
  have hk' : ¬ keywordCount = 0 := Nat.pos_iff_ne_zero.mp hk
  cases outcome <;>
    simp [scrapeJobRun, hk', hs, expectedTermination]

/-- Witness for C7: a deadline-exceeded run with one keyword, one seed and
a merged count of 7 ends ok with the full finalization trace. -/
theorem scrapeJob_deadline_is_ok_witness :
    scrapeJobRun 1 true true 1 MateOutcome.deadlineExceeded 7 =
      (Status.ok,
        [RunAction.updateStatus Status.working, RunAction.createWriter,
          RunAction.startEngine, RunAction.closeWriter,
          RunAction.waitCountUpdates, RunAction.mergeShards,
          RunAction.setCount 7, RunAction.updateStatus Status.ok,
          RunAction.closeWriter]) :=
  (scrapeJob_deadline_is_ok 1 1 7 MateOutcome.deadlineExceeded
      (by decide) (by decide)).2 (Or.inl (by decide))

/-- C10: an empty keyword list makes `scrapeJob` mark the run working and
then failed, and return before creating a writer, writing a shard, or
merging. -/
theorem scrapeJob_empty_keywords_failed (setupOk seedsOk : Bool)
    (seedCount : Nat) (outcome : MateOutcome) (mergedCount : Nat) :
    scrapeJobRun 0 setupOk seedsOk seedCount outcome mergedCount =
      (Status.failed,
        [RunAction.updateStatus Status.working,
          RunAction.updateStatus Status.failed])
    ∧ RunAction.createWriter
        ∉ (scrapeJobRun 0 setupOk seedsOk seedCount outcome mergedCount).2
    ∧ RunAction.mergeShards
        ∉ (scrapeJobRun 0 setupOk seedsOk seedCount outcome mergedCount).2 := by
  refine ⟨rfl, ?_, ?_⟩ <;>
    · show _ ∉ [RunAction.updateStatus Status.working,
        RunAction.updateStatus Status.failed]
      decide

/-! ## The rotating shard writer (`webrunner.RotatingCsvWriter`, C9)

A shard's content is its optional header row plus its data rows; the
filename index, byte-order marker, periodic flushing and the `OnWrite`
callback do not affect row counts and are not part of the invariant.  The
header a rotation derives from the sample payload is passed alongside each
write. -/

/-- Content of one shard file: the header row written at rotation (when
derivable from the sample payload) and the data rows. -/
structure OpenShard where
  header : Option Rec
  rows : List Rec
deriving DecidableEq

/-- Mutable state of a `RotatingCsvWriter`: the configured limit, the
`currentCount` and `fileIndex` fields, the open shard (if any), and the
already-closed shards on disk. -/
structure RotatingCsvWriter where
  limit : Nat
  currentCount : Nat
  fileIndex : Nat
  current : Option OpenShard
  closed : List OpenShard
deriving DecidableEq

/-- `NewRotatingCsvWriter`: no file open yet, `fileIndex` starts at 1. -/
def NewRotatingCsvWriter (limit : Nat) : RotatingCsvWriter :=
  { limit := limit, currentCount := 0, fileIndex := 1, current := none,
    closed := [] }

/-- The shard row limit the web runner configures. -/
def webRunnerRowLimit : Nat := 50000

/-- `rotate`: close the current file (if any), create the next indexed
file, reset the row count to zero and write the derivable header (not
counted as a row). -/
def rotate (w : RotatingCsvWriter) (headers : Option Rec) : RotatingCsvWriter :=
  { limit := w.limit, currentCount := 0, fileIndex := w.fileIndex + 1,
    current := some { header := headers, rows := [] },
    closed :=
      match w.current with
      | some sh => w.closed ++ [sh]
      | none => w.closed }

/-- `writeOne`: open a first file if none is open, rotate when the current
count has reached the limit, then append the record and count it. -/
def writeOne (w : RotatingCsvWriter) (record : Rec) (headers : Option Rec) :
    RotatingCsvWriter :=
  let w1 := if w.current.isNone then rotate w headers else w
  let w2 := if w1.limit ≤ w1.currentCount then rotate w1 headers else w1
  match w2.current with
  | some sh =>
    { w2 with current := some { header := sh.header, rows := sh.rows ++ [record] },
              currentCount := w2.currentCount + 1 }
  | none => w2

/-- `Close`: flush and close the open file; idempotent. -/
def closeWriter (w : RotatingCsvWriter) : RotatingCsvWriter :=
  match w.current with
  | some sh => { w with current := none, closed := w.closed ++ [sh] }
  | none => w

/-- Every shard file the writer has produced, closed or still open. -/
def allShards (w : RotatingCsvWriter) : List OpenShard :=
  w.closed ++ w.current.toList

/-- A sequence of writes, each with the header derivable from its
payload. -/
def runWrites (w : RotatingCsvWriter) (ws : List (Rec × Option Rec)) :
    RotatingCsvWriter :=
  ws.foldl (fun acc p => writeOne acc p.1 p.2) w

/-- The writer invariant: closed shards are within the limit, and the open
shard's row count both matches `currentCount` and is within the limit. -/
def WriterInv (w : RotatingCsvWriter) : Prop :=
  (∀ sh ∈ w.closed, sh.rows.length ≤ w.limit)
  ∧ (∀ sh, w.current = some sh →
      sh.rows.length = w.currentCount ∧ sh.rows.length ≤ w.limit)

/-- `rotate` keeps the limit and the invariant. -/
theorem rotate_inv (w : RotatingCsvWriter) (headers : Option Rec)
    (hw : WriterInv w) : WriterInv (rotate w headers)
      ∧ (rotate w headers).limit = w.limit := by
  obtain ⟨hclosed, hcur⟩ := hw
  refine ⟨⟨?_, ?_⟩, rfl⟩
  · intro sh hsh
    simp only [rotate] at hsh
    cases hc : w.current with
    | some old =>
      rw [hc] at hsh
      rcases List.mem_append.mp hsh with h | h
      · exact hclosed sh h
      · have h' := List.mem_singleton.mp h
        subst h'
        exact (hcur _ hc).2
    | none =>
      rw [hc] at hsh
      exact hclosed sh hsh
  · intro sh hsh
    simp only [rotate, Option.some.injEq] at hsh
    subst hsh
    simp [rotate]

/-- `writeOne` keeps the limit and, when the limit is positive, the
invariant. -/
theorem writeOne_inv (w : RotatingCsvWriter) (record : Rec)
    (headers : Option Rec) (hpos : 0 < w.limit) (hw : WriterInv w) :
    WriterInv (writeOne w record headers)
      ∧ (writeOne w record headers).limit = w.limit := by
  have step1 : WriterInv (if w.current.isNone then rotate w headers else w)
      ∧ (if w.current.isNone then rotate w headers else w).limit = w.limit
      ∧ (if w.current.isNone then rotate w headers else w).current.isSome = true := by
    cases hc : w.current with
    | none =>
      simp only [hc, Option.isNone_none, if_true]
      refine ⟨(rotate_inv w headers hw).1, (rotate_inv w headers hw).2, ?_⟩
      simp [rotate]
    | some sh =>
      simp only [hc, Option.isNone_some, Bool.false_eq_true, if_false]
      refine ⟨hw, ?_, ?_⟩ <;> simp [hc]
  set w1 := if w.current.isNone then rotate w headers else w with hw1
  obtain ⟨hinv1, hlim1, hsome1⟩ := step1
  have step2 : WriterInv (if w1.limit ≤ w1.currentCount then rotate w1 headers else w1)
      ∧ (if w1.limit ≤ w1.currentCount then rotate w1 headers else w1).limit = w.limit
      ∧ (if w1.limit ≤ w1.currentCount then rotate w1 headers else w1).current.isSome = true
      ∧ (if w1.limit ≤ w1.currentCount then rotate w1 headers else w1).currentCount < w.limit := by
    by_cases hle : w1.limit ≤ w1.currentCount
    · simp only [hle, if_true]
      refine ⟨(rotate_inv w1 headers hinv1).1, by rw [(rotate_inv w1 headers hinv1).2, hlim1], rfl, ?_⟩
      show 0 < w.limit
      exact hpos
    · simp only [hle, if_false]
      refine ⟨hinv1, hlim1, hsome1, ?_⟩
      rw [hlim1] at hle
      omega
  set w2 := if w1.limit ≤ w1.currentCount then rotate w1 headers else w1 with hw2
  obtain ⟨hinv2, hlim2, hsome2, hcnt2⟩ := step2
  obtain ⟨sh2, hsh2⟩ := Option.isSome_iff_exists.mp hsome2
  have hrows : sh2.rows.length = w2.currentCount ∧ sh2.rows.length ≤ w2.limit :=
    hinv2.2 sh2 hsh2
  have hfinal : writeOne w record headers =
      { w2 with current := some { header := sh2.header, rows := sh2.rows ++ [record] },
                currentCount := w2.currentCount + 1 } := by
    rw [writeOne]
    rw [← hw1, ← hw2, hsh2]
  rw [hfinal]
  refine ⟨⟨?_, ?_⟩, hlim2⟩
  · intro sh hsh
    exact le_of_le_of_eq (hinv2.1 sh hsh) hlim2 |>.trans (le_of_eq hlim2.symm)
  · intro sh hsh
    simp only [Option.some.injEq] at hsh
    subst hsh
    simp only [List.length_append, List.length_singleton]
    constructor
    · omega
    · rw [hlim2]
      omega

/-- C9: starting from a fresh writer with a positive row limit, any write
sequence leaves every shard file (closed or open) within the limit, and a
rotation always resets the row count to zero with the header kept out of
the data rows. -/
theorem rotating_writer_row_cap (limit : Nat) (ws : List (Rec × Option Rec))
    (hpos : 0 < limit) :
    (∀ sh ∈ allShards (runWrites (NewRotatingCsvWriter limit) ws),
      sh.rows.length ≤ limit)
    ∧ (∀ (w : RotatingCsvWriter) (headers : Option Rec),
        (rotate w headers).currentCount = 0
        ∧ (rotate w headers).current = some { header := headers, rows := [] }) := by
  have main : ∀ (ws : List (Rec × Option Rec)) (w : RotatingCsvWriter),
      w.limit = limit → WriterInv w →
      (runWrites w ws).limit = limit ∧ WriterInv (runWrites w ws) := by
    intro ws
    induction ws with
    | nil => exact fun w hl hw => ⟨hl, hw⟩
    | cons p ps ih =>
      intro w hl hw
      have hpos' : 0 < w.limit := hl ▸ hpos
      obtain ⟨hinv', hlim'⟩ := writeOne_inv w p.1 p.2 hpos' hw
      exact ih (writeOne w p.1 p.2) (hlim'.trans hl) hinv'
  have hinit : WriterInv (NewRotatingCsvWriter limit) := by
    constructor
    · intro sh hsh
      simp [NewRotatingCsvWriter] at hsh
    · intro sh hsh
      simp [NewRotatingCsvWriter] at hsh
  obtain ⟨hlim, hclosed, hcur⟩ :=
    And.intro (main ws (NewRotatingCsvWriter limit) rfl hinit).1
      (main ws (NewRotatingCsvWriter limit) rfl hinit).2
  refine ⟨?_, fun w headers => ⟨rfl, rfl⟩⟩
  intro sh hsh
  rcases List.mem_append.mp hsh with h | h
  · exact le_of_le_of_eq (hclosed sh h) hlim
  · cases hc : (runWrites (NewRotatingCsvWriter limit) ws).current with
    | none => simp [hc, Option.toList] at h
    | some sh' =>
      rw [hc] at h
      rcases List.mem_singleton.mp (by simpa [Option.toList] using h) with rfl
      exact le_of_le_of_eq (hcur sh hc).2 hlim

/-- Witness for C9: five writes against a limit of 2 produce shards of at
most two data rows each. -/
theorem rotating_writer_row_cap_witness :
    (allShards (runWrites (NewRotatingCsvWriter 2)
      [(["a"], some ["h"]), (["b"], some ["h"]), (["c"], some ["h"]),
        (["d"], some ["h"]), (["e"], some ["h"])])).all
      (fun sh => decide (sh.rows.length ≤ 2)) = true := by
  have h := (rotating_writer_row_cap 2
    [(["a"], some ["h"]), (["b"], some ["h"]), (["c"], some ["h"]),
      (["d"], some ["h"]), (["e"], some ["h"])] (by decide)).1
  exact List.all_eq_true.mpr (fun sh hsh => decide_eq_true (h sh hsh))

end MapsScraper
